import Mathlib

/-!
Shallow embedding of the storybook package (storybook.go) of the templ
repository: the SortedMap insertion-ordered container, the argument
extractors, the reflective dispatcher executeTemplate, the preview HTTP
router, and the three-stage build pipeline.  Each Lean definition mirrors
one Go function or type; external collaborators (the JSON encoder, the
dirhash library, the process runner) are abstracted as parameters or as
stage-outcome records, as noted at each definition.
-/

namespace Storybook

/-- Rendered component: models a value implementing the templ.Component
interface, abstracted (per the collaborator contract) to the output it
renders into the stream. -/
structure Component where
  render : String
deriving DecidableEq

/-- Go interface value (the interface\x7b\x7d arguments and results flowing
through the dispatcher): a string, an integer, a boolean, a value that
satisfies templ.Component, or nil. -/
inductive GoValue
  | str (s : String)
  | int (i : Int)
  | boolean (b : Bool)
  | comp (c : Component)
  | nullv
deriving DecidableEq

/-- Query string, modelling url.Values: an association list from parameter
name to value (url.Values.Get returns the first value). -/
abbrev Query := List (String × String)

/-- Models url.Values.Get: the first value for the name, or the empty
string when the parameter is absent. -/
def queryGet (q : Query) (name : String) : String :=
  match q.find? (fun p => p.1 == name) with
  | some p => p.2
  | none => ""

/-- First-match association-list lookup (models a Go map read that reports
presence). -/
def lookupStr {β : Type} (m : List (String × β)) (k : String) : Option β :=
  (m.find? (fun p => p.1 == k)).map (fun p => p.2)

/-- Go map assignment m[k] = v: replaces the binding if the key is present,
otherwise appends it. -/
def mapInsert {β : Type} : List (String × β) → String → β → List (String × β)
  | [], k, v => [(k, v)]
  | p :: t, k, v => if p.1 == k then (k, v) :: t else p :: mapInsert t k v

/-- SortedMap: the internal Go map together with the keys slice recording
insertion order.  The sync.Mutex only serialises Add and MarshalJSON and
has no effect on the sequential semantics, so it is not modelled. -/
structure SortedMap (α : Type) where
  internal : List (String × α)
  keys : List String

/-- NewSortedMap: empty map, empty key slice. -/
def NewSortedMap {α : Type} : SortedMap α :=
  ⟨[], []⟩

/-- SortedMap.Add: appends the key to the keys slice (even when already
present) and sets the map entry. -/
def SortedMap.Add {α : Type} (sm : SortedMap α) (key : String) (value : α) : SortedMap α :=
  ⟨mapInsert sm.internal key value, sm.keys ++ [key]⟩

/-- A sequence of Add calls, applied in order. -/
def applyAdds {α : Type} (sm : SortedMap α) (ops : List (String × α)) : SortedMap α :=
  ops.foldl (fun s p => s.Add p.1 p.2) sm

/-- json.Encoder.Encode of a map read: an absent key yields the nil
interface value, encoded as null.  encV encodes a present value. -/
def encodeVal {α : Type} (encV : α → String) : Option α → String
  | some v => encV v
  | none => "null"

/-- The loop body of SortedMap.MarshalJSON over a key sequence: for each
key, Encode(key) (encS plus the trailing newline the Go encoder writes),
a colon, Encode(internal[key]), and a comma after every entry but the
last. -/
def marshalEntries {α : Type} (encS : String → String) (encV : α → String)
    (m : List (String × α)) : List String → String
  | [] => ""
  | [k] => encS k ++ "\n" ++ ":" ++ encodeVal encV (lookupStr m k) ++ "\n"
  | k :: k2 :: t =>
      encS k ++ "\n" ++ ":" ++ encodeVal encV (lookupStr m k) ++ "\n" ++ "," ++
        marshalEntries encS encV m (k2 :: t)

/-- SortedMap.MarshalJSON: a brace-delimited object whose entries follow
the keys slice in order.  encS is the JSON string encoder and encV the
JSON value encoder of the json package. -/
def SortedMap.MarshalJSON {α : Type} (encS : String → String) (encV : α → String)
    (sm : SortedMap α) : String :=
  "\x7b" ++ marshalEntries encS encV sm.internal sm.keys ++ "\x7d"

/-- Spec-side rendering (for the refinement claim about key order): a JSON
object literal that emits exactly the given key sequence, in exactly that
order, against the given backing map. -/
def objectLiteralWithKeys {α : Type} (encS : String → String) (encV : α → String)
    (m : List (String × α)) (ks : List String) : String :=
  "\x7b" ++ marshalEntries encS encV m ks ++ "\x7d"

/-- Component constructor value as seen through reflect: its declared
parameter count (reflect.Type.NumIn), the string fmt produces when the
function value is formatted with the %s verb (determined by the function
value alone, never by the registration name), and the call itself,
mapped over interface values. -/
structure GoFunc where
  numIn : Nat
  fmtStr : String
  call : List GoValue → List GoValue

/-- executeTemplate: checks the argument count against the constructor
arity (formatting the constructor value itself, via fmtStr, into the
arity error), invokes the constructor, and requires exactly one result
that satisfies templ.Component. -/
def executeTemplate (name : String) (fn : GoFunc) (values : List GoValue) :
    Except String Component :=
  if fn.numIn ≠ values.length then
    Except.error ("templ-storybook: component " ++ fn.fmtStr ++ " expects " ++
      toString fn.numIn ++ " argument, but " ++ toString values.length ++ " were provided")
  else
    match fn.call values with
    | [GoValue.comp c] => Except.ok c
    | [_] => Except.error ("templ-storybook: result of function " ++ name ++
        " is not a templ.Component")
    | _ => Except.error ("templ-storybook: function " ++ name ++
        " must return a templ.Component")

/-- Argument descriptor: name, default value, and the Get closure reading
the typed value out of the query string.  The Control field only feeds the
UI metadata and is not modelled. -/
structure Arg where
  Name : String
  Value : GoValue
  Get : Query → GoValue

/-- TextArg.Get: the raw query string value. -/
def TextArg (name value : String) : Arg :=
  ⟨name, GoValue.str value, fun q => GoValue.str (queryGet q name)⟩

/-- BooleanArg.Get: true exactly when the raw value is the literal
string true. -/
def BooleanArg (name : String) (value : Bool) : Arg :=
  ⟨name, GoValue.boolean value, fun q => GoValue.boolean (queryGet q name == "true")⟩

/-- Outcome classification of strconv.ParseInt: a syntax error (value 0)
or a range error (value clamped to the extreme of the bit size). -/
inductive ParseErr
  | invalid
  | overflow
deriving DecidableEq

/-- Value-and-error pair returned by strconv.ParseInt. -/
structure ParseIntResult where
  val : Int
  err : Option ParseErr
deriving DecidableEq

/-- Accumulates the value of a decimal digit string; fails on any
non-digit character. -/
def digitsValAux : Nat → List Char → Option Nat
  | acc, [] => some acc
  | acc, c :: t => if c.isDigit then digitsValAux (acc * 10 + (c.toNat - 48)) t else none

/-- Value of a non-empty all-digit string, none otherwise. -/
def digitsVal : List Char → Option Nat
  | [] => none
  | c :: t => digitsValAux 0 (c :: t)

/-- Shared tail of strconv.ParseInt(s, 10, 64) after the sign: a syntax
error returns value 0; a magnitude outside the signed 64-bit range
returns the clamped extreme together with a range error. -/
def parseIntCore (neg : Bool) (ds : List Char) : ParseIntResult :=
  match digitsVal ds with
  | none => ⟨0, some ParseErr.invalid⟩
  | some n =>
    if neg then
      if n > 2 ^ 63 then ⟨-(2 ^ 63), some ParseErr.overflow⟩
      else ⟨-(n : Int), none⟩
    else
      if n ≥ 2 ^ 63 then ⟨2 ^ 63 - 1, some ParseErr.overflow⟩
      else ⟨(n : Int), none⟩

/-- strconv.ParseInt(s, 10, 64): optional sign followed by decimal
digits. -/
def parseInt64 (s : String) : ParseIntResult :=
  match s.toList with
  | [] => ⟨0, some ParseErr.invalid⟩
  | c :: rest =>
    if c = '-' then parseIntCore true rest
    else if c = '+' then parseIntCore false rest
    else parseIntCore false (c :: rest)

/-- IntArg.Get: parses the raw query value with strconv.ParseInt(s, 10, 64),
discards the error, and converts to int (the identity on a 64-bit
platform). -/
def IntArgGet (name : String) (q : Query) : Int :=
  (parseInt64 (queryGet q name)).val

/-- IntArg: descriptor whose Get closure is IntArgGet.  The min, max and
step configuration only populates the UI control map and is not
modelled. -/
def IntArg (name : String) (value : Int) : Arg :=
  ⟨name, GoValue.int value, fun q => GoValue.int (IntArgGet name q)⟩

/-- ObjectArg.Get: json.Unmarshal of the raw query value into the shared
target variable behind valuePtr, then the dereferenced target is
returned.  The decode failure is discarded, leaving the target as it was.
State threading makes valuePtr explicit: the argument target is the value
the pointer currently holds, and the result pairs the returned value with
the value the pointer holds afterwards (the Go closure keeps the target
across calls).  decode abstracts json.Unmarshal for the target type. -/
def ObjectArgGet {α : Type} (decode : String → Option α) (name : String)
    (q : Query) (target : α) : α × α :=
  match decode (queryGet q name) with
  | some v => (v, v)
  | none => (target, target)

/-- StoryParameters: the server parameter map (holding the id entry). -/
structure StoryParameters where
  Server : List (String × GoValue)

/-- Story: a named variant with its own args map. -/
structure Story where
  Name : String
  Args : SortedMap GoValue

/-- Conf: per-component story configuration. -/
structure Conf where
  Title : String
  Parameters : StoryParameters
  Args : SortedMap GoValue
  ArgTypes : SortedMap GoValue
  Stories : List Story

/-- Conf.AddStory: builds a SortedMap m from the supplied args, then
appends a Story whose Args field is a fresh NewSortedMap, exactly as the
source does (m is never stored). -/
def Conf.AddStory (c : Conf) (name : String) (args : List Arg) : Conf :=
  let m := applyAdds NewSortedMap (args.map (fun a => (a.Name, a.Value)))
  let _unused := m
  { c with Stories := c.Stories ++ [⟨name, NewSortedMap⟩] }

/-- HTTP response outcome of the preview path: the three terminal
statuses.  notFound models http.NotFound (status 404), serverError models
http.Error with the given text (status 500), ok models the 200 response
whose body is the rendered component output. -/
inductive Response
  | notFound
  | serverError (body : String)
  | ok (body : String)
deriving DecidableEq

/-- NewHandler: extracts each argument from the query in declared order,
dispatches through executeTemplate, answers 500 with the error text on
failure, and renders the component with a 200 on success (templ.Handler
streams the component output). -/
def NewHandler (name : String) (fn : GoFunc) (args : List Arg) (q : Query) : Response :=
  let argv := args.map (fun a => a.Get q)
  match executeTemplate name fn argv with
  | Except.error e => Response.serverError e
  | Except.ok c => Response.ok c.render

/-- previewHandler: the pathvars extraction result is none when the URL
does not match the pattern, otherwise the extracted variable map.  A
missing name variable or an unregistered component name answers 404;
otherwise the registered handler (built by NewHandler with the same name,
as AddComponent does) serves the request. -/
def previewHandler (handlers : List (String × GoFunc × List Arg))
    (extractResult : Option (List (String × String))) (q : Query) : Response :=
  match extractResult with
  | none => Response.notFound
  | some values =>
    match lookupStr values "name" with
    | none => Response.notFound
    | some name =>
      match lookupStr handlers name with
      | none => Response.notFound
      | some fa => NewHandler name fa.1 fa.2 q

/-- Directory content: filename to file content. -/
abbrev DirState := List (String × String)

/-- Insert a file into a name-sorted list. -/
def insertFile (f : String × String) : DirState → DirState
  | [] => [f]
  | g :: t => if f.1 < g.1 then f :: g :: t else g :: insertFile f t

/-- Sort directory entries by filename. -/
def sortFiles : DirState → DirState
  | [] => []
  | f :: t => insertFile f (sortFiles t)

/-- dirhash.HashDir with the default hash, idealised as a perfect hash: a
deterministic digest of the file set, insensitive to enumeration order
(the library sorts the file names before hashing). -/
def hashDir (d : DirState) : DirState :=
  sortFiles d

/-- The files configureStorybook writes into the stories directory: one
Title.stories.json file per registered Conf, holding the JSON encoding of
the Conf followed by the newline json.Encoder.Encode appends.  enc
abstracts the JSON encoder. -/
def genStories (enc : Conf → String) (registry : List Conf) : DirState :=
  registry.map (fun c => (c.Title ++ ".stories.json", enc c ++ "\n"))

/-- Outcome of one configureStorybook run on the stories directory. -/
structure ConfigureResult where
  before : DirState
  after : DirState
  changed : Bool
  dir : DirState

/-- configureStorybook, on the error-free path: hash the stories
directory, delete and recreate it, write one config file per registered
component, hash again; the change signal is inequality of the two
hashes.  (The preview.js bridge script is written outside the stories
directory and does not enter either hash.) -/
def configureStorybook (enc : Conf → String) (registry : List Conf)
    (dir : DirState) : ConfigureResult :=
  let before := hashDir dir
  let newDir := genStories enc registry
  let after := hashDir newDir
  ⟨before, after, decide (before ≠ after), newDir⟩

/-- buildStorybook: locating npm on the search path fails with the wrapped
dependency error; otherwise the outcome of running the build command is
returned (none on success, the process error otherwise). -/
def buildStorybook (npmFound : Bool) (runErr : Option String) : Option String :=
  if npmFound then runErr
  else some ("templ-storybook: cannot run storybook, cannot find npm on the path, " ++
    "check that Node.js is installed: exec: npm: executable file not found in PATH")

/-- Stage outcomes feeding one Build run: the install stage error, the
three ctx.Err() checks (true when the context is cancelled at that
check), the configure stage outcome (error, or the change signal), and
the error of the stage-3 build command were it run. -/
structure BuildEnv where
  installErr : Option String
  ctxErr1 : Bool
  configureRes : Except String Bool
  ctxErr2 : Bool
  buildErr : Option String
  ctxErr3 : Bool

/-- What a Build run returned and which stages it reached. -/
structure BuildOutcome where
  err : Option String
  ranConfigure : Bool
  ranBuild : Bool
deriving DecidableEq

/-- Storybook.Build: install, then configure, then (only when the change
signal is set) the static bundle build.  Stage errors from install and
configure are returned; cancellation between stages returns the current
(nil) error.  The source invokes sh.buildStorybook() without binding its
result, so the stage-3 error in env.buildErr is dropped on the floor and
never reaches the returned error. -/
def Build (env : BuildEnv) : BuildOutcome :=
  match env.installErr with
  | some e => ⟨some e, false, false⟩
  | none =>
    if env.ctxErr1 then ⟨none, false, false⟩
    else
      match env.configureRes with
      | Except.error e => ⟨some e, true, false⟩
      | Except.ok changed =>
        if env.ctxErr2 then ⟨none, true, false⟩
        else if changed then
          let _discarded := env.buildErr
          ⟨none, true, true⟩
        else ⟨none, true, false⟩

theorem applyAdds_cons {α : Type} (sm : SortedMap α) (p : String × α) (t : List (String × α)) :
    applyAdds sm (p :: t) = applyAdds (sm.Add p.1 p.2) t :=
  rfl

theorem applyAdds_keys {α : Type} (ops : List (String × α)) (sm : SortedMap α) :
    (applyAdds sm ops).keys = sm.keys ++ ops.map Prod.fst := by
  induction ops generalizing sm with
  | nil => simp [applyAdds]
  | cons p t ih =>
    rw [applyAdds_cons, ih]
    simp [SortedMap.Add]

theorem lookupStr_cons {β : Type} (p : String × β) (t : List (String × β)) (k : String) :
    lookupStr (p :: t) k = if p.1 = k then some p.2 else lookupStr t k := by
  by_cases h : p.1 = k
  · rw [if_pos h]
    simp only [lookupStr]
    rw [List.find?_cons_of_pos _ (by simp [h])]
    rfl
  · rw [if_neg h]
    simp only [lookupStr]
    rw [List.find?_cons_of_neg _ (by simp [h])]

theorem lookupStr_mapInsert {β : Type} (m : List (String × β)) (k k2 : String) (v : β) :
    lookupStr (mapInsert m k v) k2 = if k2 = k then some v else lookupStr m k2 := by
  induction m with
  | nil =>
    simp only [mapInsert]
    rw [lookupStr_cons]
    by_cases h : k2 = k
    · simp [h]
    · rw [if_neg (fun hh => h hh.symm), if_neg h]
  | cons p t ih =>
    by_cases hp : p.1 = k
    · have hmi : mapInsert (p :: t) k v = (k, v) :: t := by
        simp [mapInsert, hp]
      rw [hmi, lookupStr_cons, lookupStr_cons]
      by_cases h : k2 = k
      · simp [h]
      · rw [if_neg (fun hh => h hh.symm), if_neg h,
          if_neg (fun hh => h (hh.symm.trans hp))]
    · have hmi : mapInsert (p :: t) k v = p :: mapInsert t k v := by
        simp [mapInsert, hp]
      rw [hmi, lookupStr_cons, lookupStr_cons, ih]
      by_cases hq : p.1 = k2 <;> by_cases h : k2 = k
      · exact absurd (hq.trans h) hp
      · simp [hq, h]
      · subst h
        simp [hq]
      · simp [hq, h]

theorem applyAdds_lookup {α : Type} (ops : List (String × α)) (sm : SortedMap α) (k : String) :
    (lookupStr (applyAdds sm ops).internal k).isSome = true ↔
      k ∈ ops.map Prod.fst ∨ (lookupStr sm.internal k).isSome = true := by
  induction ops generalizing sm with
  | nil => simp [applyAdds]
  | cons p t ih =>
    rw [applyAdds_cons, ih]
    by_cases h : k = p.1 <;>
      simp [SortedMap.Add, lookupStr_mapInsert, h]

/-- C1: for every sequence of Add calls (keys may repeat), MarshalJSON
produces the JSON object literal whose key sequence is exactly the keys
of the Add calls, in call order. -/
theorem marshalJSON_insertion_order {α : Type} (encS : String → String) (encV : α → String)
    (ops : List (String × α)) :
    (applyAdds NewSortedMap ops).keys = ops.map Prod.fst ∧
    (applyAdds NewSortedMap ops).MarshalJSON encS encV
      = objectLiteralWithKeys encS encV (applyAdds NewSortedMap ops).internal
          (ops.map Prod.fst) := by
  have hk : (applyAdds (NewSortedMap : SortedMap α) ops).keys = ops.map Prod.fst := by
    rw [applyAdds_keys]
    simp [NewSortedMap]
  refine ⟨hk, ?_⟩
  rw [SortedMap.MarshalJSON, objectLiteralWithKeys, hk]

/-- C9 counterexample: adding the key a twice leaves a duplicate in the
keys slice, refuting the no-duplicates part of the claimed invariant. -/
theorem sortedMap_keys_duplicate :
    ¬ (applyAdds (NewSortedMap : SortedMap Nat) [("a", 0), ("a", 1)]).keys.Nodup := by
  decide

/-- C9 (amended): for every SortedMap reachable by a sequence of Add
calls, the keys slice equals the sequence of added keys, in insertion
order (so a repeated key occurs repeatedly), and a key has an entry in
the internal map exactly when it occurs in the keys slice. -/
theorem sortedMap_invariant {α : Type} (ops : List (String × α)) (k : String) :
    (applyAdds NewSortedMap ops).keys = ops.map Prod.fst ∧
    ((lookupStr (applyAdds NewSortedMap ops).internal k).isSome = true ↔
      k ∈ (applyAdds NewSortedMap ops).keys) := by
  have hk : (applyAdds (NewSortedMap : SortedMap α) ops).keys = ops.map Prod.fst := by
    rw [applyAdds_keys]
    simp [NewSortedMap]
  refine ⟨hk, ?_⟩
  rw [hk, applyAdds_lookup]
  simp [NewSortedMap, lookupStr]

/-- C10: AddStory appends a Story with the requested name and a fresh
empty SortedMap as its Args; the map built from the supplied args is
discarded, so the result does not depend on the args at all. -/
theorem addStory_discards_args (c : Conf) (name : String) (args : List Arg) :
    (c.AddStory name args).Stories = c.Stories ++ [⟨name, NewSortedMap⟩] ∧
    c.AddStory name args = c.AddStory name [] :=
  ⟨rfl, rfl⟩

/-- A two-parameter constructor value, with the string fmt renders for the
%s verb on a func value, used as the concrete failing input for the arity
error claim. -/
def buttonConstructor : GoFunc :=
  ⟨2, "%!s(func(string, string) templ.Component=0x0)", fun _ => []⟩

/-- C2: at the failing input (component name button, two-parameter
constructor, one provided value) the arity error is returned without
invoking the constructor, but the message interpolates the fmt rendering
of the constructor value where the component name belongs: the message
does not depend on the name at all (so it cannot carry it), and the
result does not depend on the call function (so the constructor is not
invoked). -/
theorem executeTemplate_arity_error_lacks_name :
    executeTemplate "button" buttonConstructor [GoValue.str "x"]
        = Except.error ("templ-storybook: component " ++
            "%!s(func(string, string) templ.Component=0x0)" ++
            " expects 2 argument, but 1 were provided")
    ∧ (∀ nm : String, executeTemplate nm buttonConstructor [GoValue.str "x"]
        = executeTemplate "button" buttonConstructor [GoValue.str "x"])
    ∧ (∀ g : List GoValue → List GoValue,
        executeTemplate "button" ⟨2, buttonConstructor.fmtStr, g⟩ [GoValue.str "x"]
          = executeTemplate "button" buttonConstructor [GoValue.str "x"]) :=
  ⟨rfl, fun _ => rfl, fun _ => rfl⟩

/-- C3: with a matching argument count, executeTemplate succeeds with c
exactly when the constructor returns the single value c satisfying
templ.Component; otherwise it returns one of the two invalid-signature
errors, each of which names the component. -/
theorem executeTemplate_signature_validation (name : String) (fn : GoFunc)
    (values : List GoValue) (h : fn.numIn = values.length) :
    (∀ c : Component,
      executeTemplate name fn values = Except.ok c ↔ fn.call values = [GoValue.comp c]) ∧
    ((∀ c : Component, fn.call values ≠ [GoValue.comp c]) →
      executeTemplate name fn values
          = Except.error ("templ-storybook: function " ++ name ++
              " must return a templ.Component") ∨
      executeTemplate name fn values
          = Except.error ("templ-storybook: result of function " ++ name ++
              " is not a templ.Component")) := by
  have hne : ¬ fn.numIn ≠ values.length := by simp [h]
  constructor
  · intro c
    rw [executeTemplate, if_neg hne]
    cases hcall : fn.call values with
    | nil => simp
    | cons r t =>
      cases t with
      | nil =>
        cases r <;> simp
      | cons r2 t2 => simp
  · intro hnc
    rw [executeTemplate, if_neg hne]
    cases hcall : fn.call values with
    | nil => left; rfl
    | cons r t =>
      cases t with
      | nil =>
        cases r with
        | comp c => exact absurd hcall (hnc c)
        | str s => right; rfl
        | int i => right; rfl
        | boolean b => right; rfl
        | nullv => right; rfl
      | cons r2 t2 =>
        left
        cases r <;> rfl

/-- Zero-parameter constructor returning a single templ.Component, used
as the witness input. -/
def greetingConstructor : GoFunc :=
  ⟨0, "%!s(func() templ.Component=0x0)", fun _ => [GoValue.comp ⟨"hello"⟩]⟩

/-- Witness for the signature-validation theorem at a concrete matching
call. -/
theorem executeTemplate_signature_validation_witness :
    executeTemplate "greeting" greetingConstructor [] = Except.ok ⟨"hello"⟩ :=
  ((executeTemplate_signature_validation "greeting" greetingConstructor [] rfl).1
    ⟨"hello"⟩).mpr rfl

/-- Minimal concrete decoder standing in for json.Unmarshal into an
integer-shaped target: a non-empty string of decimal digits decodes to
its value, anything else fails to decode. -/
def decodeNat (s : String) : Option Nat :=
  digitsVal s.toList

/-- C4 counterexample: a request whose raw value fails to decode, made
after an earlier successful extraction, echoes the earlier decoded value
(5), not the original default (0).  decodeNat abstracts json.Unmarshal
into an integer-shaped target. -/
theorem objectArg_failure_after_success_not_default :
    decodeNat "abc" = none ∧
    (ObjectArgGet decodeNat "o" [("o", "abc")]
        (ObjectArgGet decodeNat "o" [("o", "5")] (0 : Nat)).2).1 = 5 ∧
    (5 : Nat) ≠ 0 :=
  ⟨by decide, by decide, by decide⟩

/-- C4 (amended): when the raw value for the argument name fails to
decode, the target is left unmodified and its current value is echoed
back with no error surfaced; that value equals the original default only
when no earlier successful decode has replaced it. -/
theorem objectArgGet_failure_keeps_target {α : Type} (decode : String → Option α)
    (name : String) (q : Query) (target : α)
    (h : decode (queryGet q name) = none) :
    ObjectArgGet decode name q target = (target, target) := by
  rw [ObjectArgGet, h]

/-- Witness for the decode-failure theorem: on the first request the
unmodified target is the original default. -/
theorem objectArgGet_failure_keeps_target_witness :
    ObjectArgGet decodeNat "o" [("o", "abc")] (0 : Nat) = (0, 0) :=
  objectArgGet_failure_keeps_target decodeNat "o" [("o", "abc")] 0 (by decide)

/-- C7 counterexample: the input 9223372036854775808 fails to parse (range
error), yet IntArgGet returns the clamped value 9223372036854775807, not
the integer zero the claim requires for every failed parse. -/
theorem intArgGet_overflow_not_zero :
    (parseInt64 "9223372036854775808").err = some ParseErr.overflow ∧
    IntArgGet "n" [("n", "9223372036854775808")] = 9223372036854775807 ∧
    (9223372036854775807 : Int) ≠ 0 :=
  ⟨rfl, rfl, by decide⟩

theorem parseIntCore_err_val (neg : Bool) (ds : List Char) :
    ((parseIntCore neg ds).err = some ParseErr.invalid → (parseIntCore neg ds).val = 0) ∧
    ((parseIntCore neg ds).err = some ParseErr.overflow →
      (parseIntCore neg ds).val = 2 ^ 63 - 1 ∨ (parseIntCore neg ds).val = -(2 ^ 63)) := by
  simp only [parseIntCore]
  split
  · exact ⟨fun _ => rfl, fun h => by simp at h⟩
  · cases neg
    · simp only [Bool.false_eq_true, if_false]
      split_ifs
      · exact ⟨fun h => by simp at h, fun _ => Or.inl rfl⟩
      · exact ⟨fun h => by simp at h, fun h => by simp at h⟩
    · simp only [if_true]
      split_ifs
      · exact ⟨fun h => by simp at h, fun _ => Or.inr rfl⟩
      · exact ⟨fun h => by simp at h, fun h => by simp at h⟩

theorem parseInt64_err_val (s : String) :
    ((parseInt64 s).err = some ParseErr.invalid → (parseInt64 s).val = 0) ∧
    ((parseInt64 s).err = some ParseErr.overflow →
      (parseInt64 s).val = 2 ^ 63 - 1 ∨ (parseInt64 s).val = -(2 ^ 63)) := by
  cases hs : s.data with
  | nil =>
    simp [parseInt64, String.toList, hs]
  | cons c rest =>
    simp only [parseInt64, String.toList, hs]
    split_ifs
    · exact parseIntCore_err_val true rest
    · exact parseIntCore_err_val false rest
    · exact parseIntCore_err_val false (c :: rest)

/-- C7 (amended): IntArg parses the named raw string as a base-10 signed
64-bit integer and surfaces no error: on a syntax failure (including an
absent parameter, whose raw string is empty) it returns zero, on a range
failure it returns the clamped extreme of the 64-bit range, and on the
parseable input 42 it returns 42. -/
theorem intArgGet_leniency (name : String) (q : Query) :
    ((parseInt64 (queryGet q name)).err = some ParseErr.invalid →
      IntArgGet name q = 0) ∧
    ((parseInt64 (queryGet q name)).err = some ParseErr.overflow →
      IntArgGet name q = 2 ^ 63 - 1 ∨ IntArgGet name q = -(2 ^ 63)) ∧
    (queryGet q name = "42" → IntArgGet name q = 42) := by
  refine ⟨?_, ?_, ?_⟩
  · intro h
    rw [IntArgGet]
    exact (parseInt64_err_val (queryGet q name)).1 h
  · intro h
    rw [IntArgGet]
    exact (parseInt64_err_val (queryGet q name)).2 h
  · intro h
    rw [IntArgGet, h]
    rfl

/-- Witness for the leniency theorem at the parseable input 42. -/
theorem intArgGet_leniency_witness :
    IntArgGet "n" [("n", "42")] = 42 :=
  (intArgGet_leniency "n" [("n", "42")]).2.2 rfl

/-- C5: the install and configure stage errors short-circuit the pipeline
and are returned, and at the failing input (install and configure
succeed, the config changed, the stage-3 build command fails) the
buildStorybook stage produces its error, Build runs the stage, and Build
still returns no error: the source discards the result of the
sh.buildStorybook() call, so a stage-3 failure never reaches the caller.
The last conjunct shows the wrapped missing-dependency error
buildStorybook itself produces, equally discarded. -/
theorem build_drops_stage3_error :
    Build ⟨some "install failed", false, Except.ok true, false, none, false⟩
        = ⟨some "install failed", false, false⟩ ∧
    Build ⟨none, false, Except.error "configure failed", false, none, false⟩
        = ⟨some "configure failed", true, false⟩ ∧
    buildStorybook true (some "exit status 1") = some "exit status 1" ∧
    Build ⟨none, false, Except.ok true, false,
        buildStorybook true (some "exit status 1"), false⟩
      = ⟨none, true, true⟩ ∧
    buildStorybook false none
      = some ("templ-storybook: cannot run storybook, cannot find npm on the path, " ++
          "check that Node.js is installed: exec: npm: executable file not found in PATH") :=
  ⟨rfl, rfl, rfl, rfl, rfl⟩

/-- C6: running the configure stage twice with the registry unchanged
yields the same after hash both times, the second run therefore reports
no change, and a Build run whose configure stage reports no change skips
the stage-3 build. -/
theorem configure_twice_skips_build (enc : Conf → String) (registry : List Conf)
    (d0 : DirState) :
    (configureStorybook enc registry
        (configureStorybook enc registry d0).dir).after
      = (configureStorybook enc registry d0).after ∧
    (configureStorybook enc registry
        (configureStorybook enc registry d0).dir).changed = false ∧
    (Build ⟨none, false,
        Except.ok (configureStorybook enc registry
          (configureStorybook enc registry d0).dir).changed,
        false, none, false⟩).ranBuild = false := by
  have h2 : (configureStorybook enc registry
      (configureStorybook enc registry d0).dir).changed = false := by
    simp [configureStorybook]
  refine ⟨rfl, h2, ?_⟩
  rw [h2]
  rfl

/-- C8: every preview request terminates in exactly one of the three
outcomes: 404 when the path does not match the pattern, when the name
variable is absent from the extracted values, or when the name is not in
the handler registry; 500 carrying the dispatcher error text when
dynamic dispatch fails; and 200 carrying the rendered component output
when dispatch succeeds. -/
theorem previewHandler_outcomes (handlers : List (String × GoFunc × List Arg))
    (extractResult : Option (List (String × String))) (q : Query) :
    (previewHandler handlers extractResult q = Response.notFound ∧
      (extractResult = none ∨
       (∃ vs, extractResult = some vs ∧ lookupStr vs "name" = none) ∨
       (∃ vs n, extractResult = some vs ∧ lookupStr vs "name" = some n ∧
         lookupStr handlers n = none))) ∨
    (∃ vs n fn args e, extractResult = some vs ∧ lookupStr vs "name" = some n ∧
      lookupStr handlers n = some (fn, args) ∧
      executeTemplate n fn (args.map (fun a => a.Get q)) = Except.error e ∧
      previewHandler handlers extractResult q = Response.serverError e) ∨
    (∃ vs n fn args c, extractResult = some vs ∧ lookupStr vs "name" = some n ∧
      lookupStr handlers n = some (fn, args) ∧
      executeTemplate n fn (args.map (fun a => a.Get q)) = Except.ok c ∧
      previewHandler handlers extractResult q = Response.ok c.render) := by
  cases hx : extractResult with
  | none =>
    left
    exact ⟨by simp [previewHandler], Or.inl rfl⟩
  | some vs =>
    cases hn : lookupStr vs "name" with
    | none =>
      left
      refine ⟨?_, Or.inr (Or.inl ⟨vs, rfl, hn⟩)⟩
      simp [previewHandler, hn]
    | some n =>
      cases hh : lookupStr handlers n with
      | none =>
        left
        refine ⟨?_, Or.inr (Or.inr ⟨vs, n, rfl, hn, hh⟩)⟩
        simp [previewHandler, hn, hh]
      | some fa =>
        cases hex : executeTemplate n fa.1 (fa.2.map (fun a => a.Get q)) with
        | error e =>
          right; left
          exact ⟨vs, n, fa.1, fa.2, e, rfl, hn, hh, hex,
            by simp [previewHandler, NewHandler, hn, hh, hex]⟩
        | ok c =>
          right; right
          exact ⟨vs, n, fa.1, fa.2, c, rfl, hn, hh, hex,
            by simp [previewHandler, NewHandler, hn, hh, hex]⟩

end Storybook
